import Mathlib

/-!
Verification of the antigravity-claude-proxy dispatch and translation engine.

Shallow embedding of the JavaScript source into Lean 4:
  * JS objects become structures; absent fields are modelled with `Option`
    (`none` = the field is `undefined`/`null`) or with a stated default.
  * JS `Map`s and plain objects used as dictionaries become association
    lists that keep insertion order, with `mapSet` / `mapDelete` mirroring
    `Map.set` / `Map.delete` semantics.
  * Machine integers (millisecond timestamps, counters) become `Int`;
    fractional quota values become `ℚ`.
  * `Date.now()` is passed in explicitly as a `now : Int` parameter.
  * JS truthiness is modelled explicitly where the source relies on it
    (empty string / `0` / `null` / `undefined` are falsy).
-/

namespace AGProxy

/-- An entry of `account.modelRateLimits[quotaKey]` (see rate-limits module):
`{ isRateLimited, resetTime }` where `resetTime` is a millisecond epoch or null. -/
structure RateLimitEntry where
  isRateLimited : Bool
  resetTime : Option Int
  deriving Repr, DecidableEq

/-- An entry of `account.quota.models[modelId]`: `{ remainingFraction, resetTime }`.
`remainingFraction` is null/absent when unknown (the source checks
`typeof quota.remainingFraction === "number"`); `resetTime` is stored here as the
parsed millisecond value of the snapshot's reset date, `none` when absent. -/
structure QuotaEntry where
  remainingFraction : Option ℚ
  resetTime : Option Int
  deriving Repr, DecidableEq

/-- A process-local account record (accounts.json entry), restricted to the
fields read or written by the functions verified here.
`enabled : Option Bool` models the tri-state JS field (`undefined`/`false`/`true`);
`activeRequests` defaults to 0 where the source writes `account.activeRequests || 0`. -/
structure Account where
  email : String
  isInvalid : Bool := false
  enabled : Option Bool := some true
  activeRequests : Int := 0
  modelRateLimits : List (String × RateLimitEntry) := []
  disabledModels : List String := []
  quota : Option (List (String × QuotaEntry)) := none
  rateLimitStats : List (String × Nat) := []
  rateLimitHitCount : Nat := 0
  lastRateLimitedAt : Option Int := none
  lastUsed : Option Int := none
  deriving Repr, DecidableEq

instance : Inhabited Account := ⟨{ email := "" }⟩

/-- JS `map[k] = v` on an object / `Map.set`: replace in place when the key is
present (keeping its position), append otherwise. -/
def mapSet {α : Type} (m : List (String × α)) (k : String) (v : α) : List (String × α) :=
  if m.any (fun p => p.1 = k) then
    m.map (fun p => if p.1 = k then (k, v) else p)
  else m ++ [(k, v)]

/-- JS `Map.delete k` / `delete obj[k]`: remove the (unique) entry with key `k`. -/
def mapDelete {α : Type} (m : List (String × α)) (k : String) : List (String × α) :=
  m.eraseP (fun p => p.1 = k)

/-- JS comparison `x > now` where `x` may be `null` (which coerces to `0`). -/
def nullGt (o : Option Int) (n : Int) : Bool :=
  o.getD 0 > n

/-- `MAX_CONCURRENT_REQUESTS`. Modelled from the spec: constants.js is not in
the source tree; the spec and the contributor guide give the default 5. -/
def MAX_CONCURRENT_REQUESTS : Int := 5

/-- `MIN_QUOTA_FRACTION`. Modelled from the spec: constants.js is not in the
source tree; the spec gives the default 0.1. -/
def MIN_QUOTA_FRACTION : ℚ := mkRat 1 10

/-- `MAX_WAIT_BEFORE_ERROR_MS`. Modelled from the spec: constants.js is not in
the source tree; the spec and the contributor guide give the default 600000 ms. -/
def MAX_WAIT_BEFORE_ERROR_MS : Int := 600000

/-! ## Account manager: concurrency counters (account-manager/index.js) -/

/-- `AccountManager.incrementActiveRequests` (account-manager/index.js:251):
`newCount = (account.activeRequests || 0) + 1`. Returns the updated account and
the new count. -/
def incrementActiveRequests (account : Account) : Account × Int :=
  let newCount := account.activeRequests + 1
  ({ account with activeRequests := newCount }, newCount)

/-- `AccountManager.decrementActiveRequests` (account-manager/index.js:264):
`newCount = Math.max(0, currentCount - 1)`; a decrement at zero stays at zero
(the source only logs a warning in that case). -/
def decrementActiveRequests (account : Account) : Account × Int :=
  let currentCount := account.activeRequests
  let newCount := max 0 (currentCount - 1)
  ({ account with activeRequests := newCount }, newCount)

/-- One iteration of the dispatcher retry loop in `sendMessage`
(cloudcode/message-handler.js:76-413), as it affects one account's
`activeRequests`: either no account was selected (all `continue` paths before
line 180, which never touch the counter), or an account was borrowed at line 180
(`incrementActiveRequests`) and released in the `finally` block at line 411
(`decrementActiveRequests`) regardless of the outcome (return, throw, or
continue). The body between the two never touches the counter. -/
inductive DispatchOutcome where
  | noAccount
  | borrowed
  deriving Repr, DecidableEq

/-- Effect of a single dispatcher iteration on the selected account. -/
def runDispatchIteration (o : DispatchOutcome) (account : Account) : Account :=
  match o with
  | .noAccount => account
  | .borrowed => (decrementActiveRequests (incrementActiveRequests account).1).1

/-- Effect of a whole dispatch loop (any sequence of iteration outcomes). -/
def runDispatchLoop (outs : List DispatchOutcome) (account : Account) : Account :=
  match outs with
  | [] => account
  | o :: rest => runDispatchLoop rest (runDispatchIteration o account)

/-- C1: for every account with a non-negative `activeRequests` counter, (a) any
sequence of dispatcher iterations returns the counter to its pre-request value
and never leaves it negative, (b) `incrementActiveRequests` adds one, and (c)
`decrementActiveRequests` clamps at zero: a decrement while the counter is
already zero leaves it at zero. -/
theorem activeRequests_balanced (account : Account) (outs : List DispatchOutcome)
    (h : 0 ≤ account.activeRequests) :
    (runDispatchLoop outs account).activeRequests = account.activeRequests ∧
    0 ≤ (runDispatchLoop outs account).activeRequests ∧
    (incrementActiveRequests account).1.activeRequests = account.activeRequests + 1 ∧
    (account.activeRequests = 0 → (decrementActiveRequests account).1.activeRequests = 0) := by
  have key : ∀ (a : Account), 0 ≤ a.activeRequests →
      (runDispatchIteration .borrowed a).activeRequests = a.activeRequests := by
    intro a ha
    simp only [runDispatchIteration, decrementActiveRequests, incrementActiveRequests]
    omega
  have main : ∀ (os : List DispatchOutcome) (a : Account), 0 ≤ a.activeRequests →
      (runDispatchLoop os a).activeRequests = a.activeRequests := by
    intro os
    induction os with
    | nil => intro a _; rfl
    | cons o rest ih =>
      intro a ha
      cases o with
      | noAccount => exact ih a ha
      | borrowed =>
        have h1 := key a ha
        have h2 : 0 ≤ (runDispatchIteration .borrowed a).activeRequests := by
          rw [h1]; exact ha
        calc (runDispatchLoop (DispatchOutcome.borrowed :: rest) a).activeRequests
            = (runDispatchLoop rest (runDispatchIteration .borrowed a)).activeRequests := rfl
          _ = (runDispatchIteration .borrowed a).activeRequests := ih _ h2
          _ = a.activeRequests := h1
  refine ⟨main outs account h, ?_, rfl, ?_⟩
  · rw [main outs account h]; exact h
  · intro h0
    simp only [decrementActiveRequests, h0]
    rfl

/-- Witness for `activeRequests_balanced` at a concrete account and outcome list. -/
theorem activeRequests_balanced_witness :
    (runDispatchLoop [.borrowed, .noAccount, .borrowed] { email := "a@b.c" }).activeRequests
      = ({ email := "a@b.c" } : Account).activeRequests ∧
    0 ≤ (runDispatchLoop [.borrowed, .noAccount, .borrowed]
          { email := "a@b.c" }).activeRequests ∧
    (incrementActiveRequests { email := "a@b.c" }).1.activeRequests
      = ({ email := "a@b.c" } : Account).activeRequests + 1 ∧
    (({ email := "a@b.c" } : Account).activeRequests = 0 →
      (decrementActiveRequests { email := "a@b.c" }).1.activeRequests = 0) :=
  activeRequests_balanced { email := "a@b.c" } [.borrowed, .noAccount, .borrowed] (by decide)

/-! ## Rate limits (rate-limits module inside account-manager/quota-balancer.js) -/

/-- `buildQuotaKey` (quota-balancer.js:1041): `modelId` when `quotaType` is falsy,
else `modelId ++ ":" ++ quotaType`. -/
def buildQuotaKey (modelId : String) (quotaType : Option String) : String :=
  match quotaType with
  | none => modelId
  | some qt => if qt = "" then modelId else modelId ++ ":" ++ qt

/-- `isAccountRateLimited` (quota-balancer.js:530): disabled or invalid accounts
count as rate-limited; then a model in `disabledModels` counts as rate-limited;
then the entry under the quota key must be limited with a reset time still in
the future (`limit.resetTime > Date.now()`, null coercing to 0). -/
def isAccountRateLimited (account : Account) (modelId : String)
    (quotaType : Option String) (now : Int) : Bool :=
  if account.enabled ≠ some true then true
  else if account.isInvalid then true
  else
    let key := buildQuotaKey modelId quotaType
    let limit := account.modelRateLimits.lookup key
    if modelId ≠ "" && account.disabledModels.contains modelId then true
    else
      match limit with
      | some l => l.isRateLimited && nullGt l.resetTime now
      | none => false

/-- The quota-snapshot exclusion inside `isAccountUsable`
(quota-balancer.js:1689-1716): the check only runs in antigravity header mode;
it excludes the account when the snapshot's `remainingFraction` is a number
below `MIN_QUOTA_FRACTION` and there is no reset time (or the raw value is
falsy) or the reset time is still in the future. -/
def quotaBlocked (geminiHeaderMode : String) (account : Account)
    (modelId : String) (now : Int) : Bool :=
  if geminiHeaderMode = "antigravity" && modelId ≠ "" then
    match account.quota.bind (fun q => q.lookup modelId) with
    | some q =>
      match q.remainingFraction with
      | some f =>
        if f < MIN_QUOTA_FRACTION then
          match q.resetTime with
          | none => true
          | some t => t = 0 || t > now
        else false
      | none => false
    | none => false
  else false

/-- `isAccountUsable` (quota-balancer.js:1662, the selection-module version used
by `pickNext`, `getCurrentStickyAccount` and `pickStickyAccount`): not invalid,
not disabled via the WebUI flag, below the concurrency limit, not excluded by
the antigravity quota snapshot, and (when a model is given) not rate-limited
per `isAccountRateLimited`. -/
def isAccountUsable (geminiHeaderMode : String) (account : Account)
    (modelId : String) (quotaType : Option String) (now : Int) : Bool :=
  if account.isInvalid then false
  else if account.enabled = some false then false
  else if account.activeRequests ≥ MAX_CONCURRENT_REQUESTS then false
  else if quotaBlocked geminiHeaderMode account modelId now then false
  else if modelId ≠ "" then !(isAccountRateLimited account modelId quotaType now)
  else true

/-- The usability predicate exactly as claim C2 words it: not invalid, enabled
flag not false, `activeRequests < MAX_CONCURRENT_REQUESTS`, no unexpired
rate-limit entry under the quota key, model not in `disabledModels`, and
either no quota snapshot for the model, or `remainingFraction ≥
MIN_QUOTA_FRACTION`, or the snapshot's reset time has passed. Written from the
claim's words, to be compared with `isAccountUsable` from the source. -/
def claimUsable (account : Account) (modelId : String)
    (quotaType : Option String) (now : Int) : Bool :=
  !account.isInvalid &&
  account.enabled ≠ some false &&
  account.activeRequests < MAX_CONCURRENT_REQUESTS &&
  (match account.modelRateLimits.lookup (buildQuotaKey modelId quotaType) with
   | some l => !(l.isRateLimited && nullGt l.resetTime now)
   | none => true) &&
  !(account.disabledModels.contains modelId) &&
  (match account.quota.bind (fun q => q.lookup modelId) with
   | some q =>
     (match q.remainingFraction with
      | some f => decide (MIN_QUOTA_FRACTION ≤ f)
      | none => false) ||
     (match q.resetTime with
      | some t => decide (t ≤ now)
      | none => false)
   | none => true)

/-- A concrete account refuting claim C2: enabled, not invalid, idle, no rate
limits, no disabled models, but a quota snapshot for model "X" with 5%
remaining and no reset time. -/
def c2Account : Account :=
  { email := "c2@example.com"
    quota := some [("X", { remainingFraction := some (mkRat 1 20), resetTime := none })] }

/-- C2 counterexample: in cli header mode (the configured default) the source's
`isAccountUsable` ignores the quota snapshot and reports `c2Account` usable for
model "X", while the claim's predicate (snapshot with `remainingFraction`
below `MIN_QUOTA_FRACTION` and no reset) reports it unusable. -/
theorem isAccountUsable_claim_counterexample :
    isAccountUsable "cli" c2Account "X" none 1000 = true ∧
    claimUsable c2Account "X" none 1000 = false := by
  constructor <;> decide

/-- The usability predicate as amended: the quota-snapshot exclusion applies
only in antigravity header mode (and only when `remainingFraction` is an
actual number), and — because `isAccountRateLimited` requires a truthy
`enabled` flag — the account must be explicitly enabled, not merely
not-disabled. -/
def amendedUsable (geminiHeaderMode : String) (account : Account)
    (modelId : String) (quotaType : Option String) (now : Int) : Bool :=
  !account.isInvalid &&
  account.enabled = some true &&
  account.activeRequests < MAX_CONCURRENT_REQUESTS &&
  !(account.disabledModels.contains modelId) &&
  (match account.modelRateLimits.lookup (buildQuotaKey modelId quotaType) with
   | some l => !(l.isRateLimited && nullGt l.resetTime now)
   | none => true) &&
  !(quotaBlocked geminiHeaderMode account modelId now)

/-- C2 (amended): for every non-empty model id, the selection machinery's
`isAccountUsable` holds exactly when: the account is not invalid, its enabled
flag is literally `true`, `activeRequests < MAX_CONCURRENT_REQUESTS`, the
entry under the quota key is absent or expired, the model is not in
`disabledModels`, and the antigravity-mode quota-snapshot exclusion does not
fire (in cli mode it never fires). -/
theorem isAccountUsable_amended (geminiHeaderMode : String) (account : Account)
    (modelId : String) (quotaType : Option String) (now : Int)
    (hm : modelId ≠ "") :
    isAccountUsable geminiHeaderMode account modelId quotaType now =
      amendedUsable geminiHeaderMode account modelId quotaType now := by
  unfold isAccountUsable amendedUsable isAccountRateLimited
  by_cases hinv : account.isInvalid
  · simp [hinv]
  by_cases hen : account.enabled = some false
  · simp [hinv, hen]
  by_cases hact : account.activeRequests ≥ MAX_CONCURRENT_REQUESTS
  · have : ¬ account.activeRequests < MAX_CONCURRENT_REQUESTS := by omega
    simp [hinv, hen, hact, this]
  by_cases hq : quotaBlocked geminiHeaderMode account modelId now
  · simp [hinv, hen, hact, hq, (by omega : account.activeRequests < MAX_CONCURRENT_REQUESTS)]
  have hact' : account.activeRequests < MAX_CONCURRENT_REQUESTS := by omega
  by_cases het : account.enabled = some true
  · by_cases hd : account.disabledModels.contains modelId
    · have hd' : decide (modelId ∈ account.disabledModels) = true := by
        simpa using hd
      simp [hinv, hen, hact, hq, hact', het, hd, hm, hd']
    · have hd' : decide (modelId ∈ account.disabledModels) = false := by
        simpa using hd
      simp only [hinv, hen, hact, hq, hact', het, hd, hm, hd', if_false, if_true,
        Bool.not_false, Bool.true_and, Bool.and_true, ne_eq, ite_not,
        not_false_eq_true]
      cases account.modelRateLimits.lookup (buildQuotaKey modelId quotaType) with
      | none => simp [hd']
      | some l => simp [hd']
  · have hne : account.enabled ≠ some true := het
    simp [hinv, hen, hact, hq, hact', hne, hm, het]

/-- Witness for `isAccountUsable_amended` at a concrete input. -/
theorem isAccountUsable_amended_witness :
    isAccountUsable "cli" c2Account "X" none 1000 =
      amendedUsable "cli" c2Account "X" none 1000 :=
  isAccountUsable_amended "cli" c2Account "X" none 1000 (by decide)

/-! ## markRateLimited (quota-balancer.js:811, the rate-limits module version) -/

/-- `DAILY_LIMIT_COOLDOWN_MS` (quota-balancer.js:840): one hour. -/
def DAILY_LIMIT_COOLDOWN_MS : Int := 60 * 60 * 1000

/-- The cooldown computation of `markRateLimited` (quota-balancer.js:835-864),
staged exactly as in the source: daily limits use the 1-hour cooldown; else a
positive server-provided reset is capped at the default
(`Math.min(resetMs, DEFAULT_COOLDOWN_MS)`), else the default; then, for
non-daily limits with more than one consecutive failure, the result is
`Math.max(cooldownMs, DEFAULT_COOLDOWN_MS * Math.min(2^(failures-1), 30))`.
`defaultCooldownMs` stands for the `DEFAULT_COOLDOWN_MS` constant (constants.js
is not in the source tree; the contributor guide gives the default 10000). -/
def rateLimitCooldownMs (defaultCooldownMs : Int) (resetMs : Option Int)
    (limitType : String) (failures : Nat) : Int :=
  let cooldownMs :=
    if limitType = "daily" then DAILY_LIMIT_COOLDOWN_MS
    else
      match resetMs with
      | some r => if r > 0 then min r defaultCooldownMs else defaultCooldownMs
      | none => defaultCooldownMs
  if limitType ≠ "daily" && failures > 1 then
    max cooldownMs (defaultCooldownMs * min ((2 : Int) ^ (failures - 1)) 30)
  else cooldownMs

/-- `markRateLimited` (quota-balancer.js:811) restricted to the account it
finds: bumps the hit counters, increments the per-model consecutive-failure
count, computes the cooldown, and stores `{ isRateLimited: true, resetTime:
now + cooldownMs }` under the quota key. -/
def markRateLimitedAccount (defaultCooldownMs : Int) (account : Account)
    (resetMs : Option Int) (modelId : String) (quotaType : Option String)
    (limitType : String) (now : Int) : Account :=
  let failures := (account.rateLimitStats.lookup modelId).getD 0 + 1
  let cooldownMs := rateLimitCooldownMs defaultCooldownMs resetMs limitType failures
  { account with
    rateLimitHitCount := account.rateLimitHitCount + 1
    lastRateLimitedAt := some now
    rateLimitStats := mapSet account.rateLimitStats modelId failures
    modelRateLimits := mapSet account.modelRateLimits (buildQuotaKey modelId quotaType)
      { isRateLimited := true, resetTime := some (now + cooldownMs) } }

/-- `markRateLimited` (quota-balancer.js:811) over the account list: updates the
first account with the given email, returns whether one was found. -/
def markRateLimited (defaultCooldownMs : Int) (accounts : List Account)
    (email : String) (resetMs : Option Int) (modelId : String)
    (quotaType : Option String) (limitType : String) (now : Int) :
    List Account × Bool :=
  match accounts.findIdx? (fun a => a.email = email) with
  | none => (accounts, false)
  | some i =>
    (accounts.map (fun a =>
      if a.email = email then
        markRateLimitedAccount defaultCooldownMs a resetMs modelId quotaType limitType now
      else a), i = i)

theorem lookup_map_replace {α : Type} (m : List (String × α)) (k : String) (v : α)
    (h : m.any (fun p => p.1 = k) = true) :
    (m.map (fun p => if p.1 = k then (k, v) else p)).lookup k = some v := by
  induction m with
  | nil => simp at h
  | cons p rest ih =>
    obtain ⟨a, b⟩ := p
    simp only [List.map_cons]
    by_cases hp : (a, b).1 = k
    · rw [if_pos hp]
      simp [List.lookup]
    · rw [if_neg hp]
      have hb : (k == a) = false := by
        simp only [beq_eq_false_iff_ne, ne_eq]
        intro e; exact hp e.symm
      simp only [List.lookup, hb]
      apply ih
      simp only [List.any_cons, Bool.or_eq_true, decide_eq_true_eq] at h
      rcases h with h | h
      · exact absurd h hp
      · exact h

theorem lookup_append_new {α : Type} (m : List (String × α)) (k : String) (v : α)
    (h : m.any (fun p => p.1 = k) = false) :
    (m ++ [(k, v)]).lookup k = some v := by
  induction m with
  | nil => simp [List.lookup]
  | cons p rest ih =>
    obtain ⟨a, b⟩ := p
    simp only [List.any_cons, Bool.or_eq_false_iff, decide_eq_false_iff_not] at h
    have hb : (k == a) = false := by
      simp only [beq_eq_false_iff_ne, ne_eq]
      intro e; exact h.1 e.symm
    simp only [List.cons_append, List.lookup, hb]
    exact ih h.2

theorem mapSet_lookup {α : Type} (m : List (String × α)) (k : String) (v : α) :
    (mapSet m k v).lookup k = some v := by
  unfold mapSet
  by_cases h : m.any (fun p => p.1 = k)
  · rw [if_pos h]
    exact lookup_map_replace m k v h
  · rw [if_neg h]
    exact lookup_append_new m k v (Bool.eq_false_iff.mpr h)

/-- The cooldown formula as claim C3 states it: daily limits use 1 hour; other
limits use the server-provided reset when it is (positive and) under the
configured default, else the default; and under this claim the nth consecutive
failure (n > 1) multiplies that cooldown by `min (2^(n-1)) 30`. Written from
the claim's words, to be compared with `rateLimitCooldownMs` from the source. -/
def claimCooldownMs (defaultCooldownMs : Int) (resetMs : Option Int)
    (limitType : String) (failures : Nat) : Int :=
  let base :=
    if limitType = "daily" then DAILY_LIMIT_COOLDOWN_MS
    else
      match resetMs with
      | some r => if 0 < r ∧ r < defaultCooldownMs then r else defaultCooldownMs
      | none => defaultCooldownMs
  if failures > 1 then base * min ((2 : Int) ^ (failures - 1)) 30 else base

/-- C3 counterexample: default cooldown 10000 ms, server-provided reset 4000 ms
(under the cap), second consecutive failure for ("c3@example.com", "X"), limit
type "rpm". The claim predicts a cooldown of 4000 × 2 = 8000 ms; the source
computes `max(4000, 10000 × 2) = 20000` ms, so the stored entry's reset time is
`now + 20000`, not `now + 8000`. -/
theorem markRateLimited_claim_counterexample :
    (markRateLimitedAccount 10000 { email := "c3@example.com", rateLimitStats := [("X", 1)] }
        (some 4000) "X" none "rpm" 0).modelRateLimits.lookup "X" =
      some { isRateLimited := true, resetTime := some 20000 } ∧
    claimCooldownMs 10000 (some 4000) "rpm" 2 = 8000 ∧
    (20000 : Int) ≠ 0 + 8000 := by
  refine ⟨by decide, by decide, by decide⟩

/-- C3 (amended): `markRateLimited` on an account stores, under the quota key, a
limited entry with reset time `now + cooldown`, where `cooldown` is 1 hour for
daily limits (never multiplied); otherwise the positive server-provided reset
capped at the configured default (the default when absent or non-positive),
and, from the second consecutive failure for the same (account, model) on,
raised to at least `default × min(2^(n-1), 30)` — the backoff multiplier
applies to the configured default and the result is the maximum of the two,
not a multiplication of the base cooldown. -/
theorem markRateLimited_amended (defaultCooldownMs : Int) (account : Account)
    (resetMs : Option Int) (modelId : String) (quotaType : Option String)
    (limitType : String) (now : Int)
    (hfail : (account.rateLimitStats.lookup modelId).getD 0 + 1 > 1) :
    (markRateLimitedAccount defaultCooldownMs account resetMs modelId quotaType
        limitType now).modelRateLimits.lookup (buildQuotaKey modelId quotaType) =
      some { isRateLimited := true
             resetTime := some (now +
               (if limitType = "daily" then DAILY_LIMIT_COOLDOWN_MS
                else
                  max (match resetMs with
                       | some r => if 0 < r ∧ r < defaultCooldownMs then r else defaultCooldownMs
                       | none => defaultCooldownMs)
                    (defaultCooldownMs *
                      min ((2 : Int) ^ ((account.rateLimitStats.lookup modelId).getD 0 + 1 - 1)) 30))) } := by
  unfold markRateLimitedAccount
  simp only [mapSet_lookup]
  congr 2
  unfold rateLimitCooldownMs
  by_cases hd : limitType = "daily"
  · simp [hd]
  · have hb : (limitType ≠ "daily" && decide ((account.rateLimitStats.lookup modelId).getD 0 + 1 > 1)) = true := by
      simp [hd, hfail]
    simp only [if_neg hd, hb, if_true]
    congr 1
    cases resetMs with
    | none => simp
    | some r =>
      by_cases hr : r > 0
      · by_cases hlt : r < defaultCooldownMs
        · simp [hr, hlt, min_def, le_of_lt hlt]
        · have : min r defaultCooldownMs = defaultCooldownMs := by omega
          simp only [if_pos hr, this]
          have : ¬ (0 < r ∧ r < defaultCooldownMs) := by omega
          rw [if_neg this]
      · have hno : ¬ (0 < r ∧ r < defaultCooldownMs) := by omega
        simp [hr, hno]

/-- Witness for `markRateLimited_amended` at a concrete input (second
consecutive failure, reset 4000 ms under a 10000 ms default). -/
theorem markRateLimited_amended_witness :
    (markRateLimitedAccount 10000 { email := "c3w@example.com", rateLimitStats := [("X", 1)] }
        (some 4000) "X" (some "cli") "rpm" 5).modelRateLimits.lookup "X:cli" =
      some { isRateLimited := true
             resetTime := some (5 +
               (if ("rpm" : String) = "daily" then DAILY_LIMIT_COOLDOWN_MS
                else
                  max (match (some 4000 : Option Int) with
                       | some r => if 0 < r ∧ r < 10000 then r else 10000
                       | none => 10000)
                    (10000 *
                      min ((2 : Int) ^ ((([("X", 1)] : List (String × Nat)).lookup "X").getD 0 + 1 - 1)) 30))) } :=
  markRateLimited_amended 10000 { email := "c3w@example.com", rateLimitStats := [("X", 1)] }
    (some 4000) "X" (some "cli") "rpm" 5 (by decide)

/-! ## Optimistic reset (quota-balancer.js:786 / controllers/messages.controller.js:41-48) -/

/-- `resetAllRateLimits` (quota-balancer.js:786): for every account, every key
of `modelRateLimits` is overwritten with `{ isRateLimited: false, resetTime:
null }` — all keys, not only those of the requested model. -/
def resetAllRateLimits (accounts : List Account) : List Account :=
  accounts.map (fun account =>
    { account with
      modelRateLimits := account.modelRateLimits.map
        (fun p => (p.1, { isRateLimited := false, resetTime := none })) })

/-- `isAllRateLimited` (quota-balancer.js:557, the rate-limits module version
used by `AccountManager.isAllRateLimited`): an empty pool counts as
all-limited; otherwise every account must be disabled/invalid, rate-limited per
`isAccountRateLimited`, at its concurrency cap, or excluded by the
antigravity quota snapshot. -/
def isAllRateLimited (geminiHeaderMode : String) (accounts : List Account)
    (modelId : String) (quotaType : Option String) (now : Int) : Bool :=
  if accounts.isEmpty then true
  else accounts.all (fun acc =>
    if acc.enabled ≠ some true then true
    else if acc.isInvalid then true
    else
      isAccountRateLimited acc modelId quotaType now ||
      (acc.activeRequests ≥ MAX_CONCURRENT_REQUESTS) ||
      quotaBlocked geminiHeaderMode acc modelId now)

/-- The optimistic-reset step at the top of `handleMessages`
(controllers/messages.controller.js:41-48): if `isAllRateLimited(modelId)`
(no quota class is passed), call `resetAllRateLimits()`; otherwise leave the
pool untouched. -/
def handleMessagesReset (geminiHeaderMode : String) (accounts : List Account)
    (modelId : String) (now : Int) : List Account :=
  if isAllRateLimited geminiHeaderMode accounts modelId none now then
    resetAllRateLimits accounts
  else accounts

/-- A pool refuting claim C5's frame condition: a single account rate-limited
under the requested key "X" and also under the unrelated key "Y:cli". -/
def c5Accounts : List Account :=
  [{ email := "c5@example.com"
     modelRateLimits := [("X", { isRateLimited := true, resetTime := some 100 }),
                         ("Y:cli", { isRateLimited := true, resetTime := some 100 })] }]

/-- C5 counterexample: with every account rate-limited for the requested model
"X", the optimistic reset also clears the entry under the unrelated key
"Y:cli" (it becomes `{limited: false, reset: null}` instead of staying
`{limited: true, reset: 100}`), contradicting the claim that entries under
other (model, quota-class) keys are left unchanged. -/
theorem handleMessagesReset_claim_counterexample :
    isAllRateLimited "cli" c5Accounts "X" none 0 = true ∧
    ((handleMessagesReset "cli" c5Accounts "X" 0).head?.map
        (fun a => a.modelRateLimits.lookup "Y:cli")) =
      some (some { isRateLimited := false, resetTime := none }) ∧
    ((c5Accounts.head?.map (fun a => a.modelRateLimits.lookup "Y:cli")) =
      some (some { isRateLimited := true, resetTime := some 100 })) := by
  refine ⟨by decide, by decide, by decide⟩

/-- C5 (amended): when, at the start of handling a request, every account is
unavailable for the requested model id (checked under the bare model key, with
no quota class), the controller performs the optimistic reset, and that reset
clears every rate-limit entry of every account — all keys, including those of
other models and quota classes — to `{limited: false, reset: null}`, keeping
the key sets; when not all accounts are unavailable the pool is untouched. -/
theorem handleMessagesReset_amended (geminiHeaderMode : String)
    (accounts : List Account) (modelId : String) (now : Int) :
    (isAllRateLimited geminiHeaderMode accounts modelId none now = true →
      handleMessagesReset geminiHeaderMode accounts modelId now =
        resetAllRateLimits accounts ∧
      (∀ a ∈ resetAllRateLimits accounts, ∀ p ∈ a.modelRateLimits,
        p.2 = { isRateLimited := false, resetTime := none }) ∧
      (resetAllRateLimits accounts).map (fun a => a.modelRateLimits.map Prod.fst) =
        accounts.map (fun a => a.modelRateLimits.map Prod.fst)) ∧
    (isAllRateLimited geminiHeaderMode accounts modelId none now = false →
      handleMessagesReset geminiHeaderMode accounts modelId now = accounts) := by
  constructor
  · intro h
    refine ⟨by simp [handleMessagesReset, h], ?_, ?_⟩
    · intro a ha p hp
      unfold resetAllRateLimits at ha
      rw [List.mem_map] at ha
      obtain ⟨a0, _, rfl⟩ := ha
      simp only [List.mem_map] at hp
      obtain ⟨p0, _, rfl⟩ := hp
      rfl
    · unfold resetAllRateLimits
      rw [List.map_map]
      apply List.map_congr_left
      intro a _
      simp [List.map_map, Function.comp]
  · intro h
    simp [handleMessagesReset, h]

/-- Witness for `handleMessagesReset_amended` at the concrete pool above. -/
theorem handleMessagesReset_amended_witness :
    handleMessagesReset "cli" c5Accounts "X" 0 = resetAllRateLimits c5Accounts :=
  ((handleMessagesReset_amended "cli" c5Accounts "X" 0).1 (by decide)).1

/-! ## Sticky strategy (account-manager/strategies/sticky-strategy.js) -/

/-- Modelled from the spec: `BaseStrategy.isAccountUsable` (base-strategy.js is
not in the source tree; only its subclasses are). Follows the spec's §4.1
usability predicate: not invalid, enabled, below the concurrency cap, no active
entry in `modelRateLimits` under the (bare-model) quota key, no entry in
`disabledModels`, and either no quota snapshot for the model, or
`remainingFraction ≥ MIN_QUOTA_FRACTION`, or the snapshot's reset time has
passed. The strategy layer passes no quota type, so the key is the model id. -/
def baseIsAccountUsable (account : Account) (modelId : String) (now : Int) : Bool :=
  !account.isInvalid &&
  account.enabled ≠ some false &&
  account.activeRequests < MAX_CONCURRENT_REQUESTS &&
  (match account.modelRateLimits.lookup modelId with
   | some l => !(l.isRateLimited && nullGt l.resetTime now)
   | none => true) &&
  !(account.disabledModels.contains modelId) &&
  (match account.quota.bind (fun q => q.lookup modelId) with
   | some q =>
     (match q.remainingFraction with
      | some f => decide (MIN_QUOTA_FRACTION ≤ f)
      | none => true) ||
     (match q.resetTime with
      | some t => decide (t ≤ now)
      | none => false)
   | none => true)

/-- The wait computation inside `StickyStrategy.#shouldWaitForAccount`
(sticky-strategy.js:127-137): the remaining time of the entry stored under the
bare model key, provided the entry is limited and its reset time truthy;
0 otherwise. -/
def remainingResetMs (account : Account) (modelId : String) (now : Int) : Int :=
  if modelId ≠ "" then
    match account.modelRateLimits.lookup modelId with
    | some limit =>
      match limit.resetTime with
      | some t => if limit.isRateLimited && t ≠ 0 then t - now else 0
      | none => 0
    | none => 0
  else 0

/-- `StickyStrategy.#shouldWaitForAccount` (sticky-strategy.js:122-145): never
wait for an invalid or disabled account; otherwise wait exactly when the
remaining reset time is positive and at most `MAX_WAIT_BEFORE_ERROR_MS`. -/
def shouldWaitForAccount (account : Account) (modelId : String) (now : Int) :
    Bool × Int :=
  if account.isInvalid || account.enabled = some false then (false, 0)
  else
    let waitMs := remainingResetMs account modelId now
    if 0 < waitMs && waitMs ≤ MAX_WAIT_BEFORE_ERROR_MS then (true, waitMs)
    else (false, 0)

/-- The result triple of `StickyStrategy.selectAccount`. -/
structure SelectionResult where
  account : Option Account
  index : Nat
  waitMs : Int
  deriving Repr, DecidableEq

/-- `StickyStrategy.#pickNext` (sticky-strategy.js:96-116): scan indices
`currentIndex + 1 … currentIndex + length` modulo the pool size and return the
first usable account with its index. -/
def stickyPickNext (accounts : List Account) (currentIndex : Nat)
    (modelId : String) (now : Int) : Option (Account × Nat) :=
  (List.range accounts.length).findSome? (fun j =>
    let idx := (currentIndex + (j + 1)) % accounts.length
    match accounts.get? idx with
    | some account =>
      if baseIsAccountUsable account modelId now then some (account, idx) else none
    | none => none)

/-- Step 1 of `StickyStrategy.selectAccount` (sticky-strategy.js:42-53): the
session-pinned account, when the session exists, is mapped, its email is still
in the pool, and the account is usable. -/
def stickyStep1 (accounts : List Account) (modelId : String)
    (sessionId : Option String) (sessionMap : List (String × String))
    (now : Int) : Option SelectionResult :=
  match sessionId with
  | none => none
  | some sid =>
    match sessionMap.lookup sid with
    | none => none
    | some email =>
      match accounts.findIdx? (fun a => a.email = email) with
      | none => none
      | some i =>
        match accounts.get? i with
        | none => none
        | some account =>
          if baseIsAccountUsable account modelId now then
            some { account := some account, index := i, waitMs := 0 }
          else none

/-- The clamped index of `StickyStrategy.selectAccount` step 2
(sticky-strategy.js:56): `currentIndex >= accounts.length ? 0 : currentIndex`. -/
def stickyIndex (accounts : List Account) (currentIndex : Nat) : Nat :=
  if currentIndex ≥ accounts.length then 0 else currentIndex

/-- Steps 2-5 of `StickyStrategy.selectAccount` (sticky-strategy.js:55-89):
the (clamped) current account if usable; else round-robin when any account is
usable; else wait for the current account when `#shouldWaitForAccount` says
so; else `{null, index, 0}`. -/
def stickyFallback (accounts : List Account) (modelId : String)
    (currentIndex : Nat) (now : Int) : SelectionResult :=
  if baseIsAccountUsable (accounts.getD (stickyIndex accounts currentIndex) default)
      modelId now then
    { account := some (accounts.getD (stickyIndex accounts currentIndex) default)
      index := stickyIndex accounts currentIndex
      waitMs := 0 }
  else if (accounts.filter (fun a => baseIsAccountUsable a modelId now)).length > 0 then
    match stickyPickNext accounts (stickyIndex accounts currentIndex) modelId now with
    | some (a, idx) => { account := some a, index := idx, waitMs := 0 }
    | none => { account := none, index := stickyIndex accounts currentIndex, waitMs := 0 }
  else if (shouldWaitForAccount
      (accounts.getD (stickyIndex accounts currentIndex) default) modelId now).1 then
    { account := none
      index := stickyIndex accounts currentIndex
      waitMs := (shouldWaitForAccount
        (accounts.getD (stickyIndex accounts currentIndex) default) modelId now).2 }
  else { account := none, index := stickyIndex accounts currentIndex, waitMs := 0 }

/-- `StickyStrategy.selectAccount` (sticky-strategy.js:34-90), as the selection
triple it returns. The write-backs it performs on the way (stamping
`account.lastUsed`, pinning `sessionMap[sessionId]`, `onSave`) do not affect
the returned triple and are not modelled here. -/
def stickySelectAccount (accounts : List Account) (modelId : String)
    (currentIndex : Nat) (sessionId : Option String)
    (sessionMap : List (String × String)) (now : Int) : SelectionResult :=
  if accounts.isEmpty then { account := none, index := currentIndex, waitMs := 0 }
  else
    match stickyStep1 accounts modelId sessionId sessionMap now with
    | some r => r
    | none => stickyFallback accounts modelId currentIndex now

/-- A concrete account refuting claim C9: invalid (hence unusable), yet holding
a rate-limit entry for "X" with 5000 ms remaining — well within the wait cap. -/
def c9Account : Account :=
  { email := "c9@example.com"
    isInvalid := true
    modelRateLimits := [("X", { isRateLimited := true, resetTime := some 5000 })] }

/-- C9 counterexample: with the single account `c9Account` nothing is usable and
its remaining reset time is 5000 ms — positive and at most
`MAX_WAIT_BEFORE_ERROR_MS` — so the claim predicts `waitMs = 5000`; but
`#shouldWaitForAccount` refuses to wait for an invalid account and the strategy
returns `waitMs = 0`. -/
theorem stickySelect_claim_counterexample :
    baseIsAccountUsable c9Account "X" 0 = false ∧
    remainingResetMs c9Account "X" 0 = 5000 ∧
    ((0 : Int) < 5000 ∧ (5000 : Int) ≤ MAX_WAIT_BEFORE_ERROR_MS) ∧
    stickySelectAccount [c9Account] "X" 0 none [] 0 =
      { account := none, index := 0, waitMs := 0 } := by
  refine ⟨by decide, by decide, by decide, by decide⟩

/-- C9 (amended): when no account is usable, the sticky strategy returns
`{account: null, waitMs: w}` where `w` is the remaining rate-limit reset time
of the account at the (clamped) current index exactly when that account is
neither invalid nor disabled and the remaining time is positive and at most
`MAX_WAIT_BEFORE_ERROR_MS` (default 10 minutes), and `w = 0` otherwise. -/
theorem stickyStep1_of_all_unusable (accounts : List Account) (modelId : String)
    (sessionId : Option String) (sessionMap : List (String × String)) (now : Int)
    (hall : ∀ a ∈ accounts, baseIsAccountUsable a modelId now = false) :
    stickyStep1 accounts modelId sessionId sessionMap now = none := by
  unfold stickyStep1
  cases sessionId with
  | none => rfl
  | some sid =>
    dsimp only
    cases sessionMap.lookup sid with
    | none => rfl
    | some email =>
      dsimp only
      cases accounts.findIdx? (fun a => a.email = email) with
      | none => rfl
      | some i =>
        dsimp only
        cases hget : accounts.get? i with
        | none => rfl
        | some account =>
          have hmem : account ∈ accounts := List.get?_mem hget
          dsimp only
          rw [hall account hmem]
          rfl

theorem stickySelect_amended (accounts : List Account) (modelId : String)
    (currentIndex : Nat) (sessionId : Option String)
    (sessionMap : List (String × String)) (now : Int)
    (hne : accounts ≠ [])
    (hall : ∀ a ∈ accounts, baseIsAccountUsable a modelId now = false) :
    stickySelectAccount accounts modelId currentIndex sessionId sessionMap now =
      { account := none
        index := stickyIndex accounts currentIndex
        waitMs :=
          if !(accounts.getD (stickyIndex accounts currentIndex) default).isInvalid &&
              (accounts.getD (stickyIndex accounts currentIndex) default).enabled ≠ some false &&
              0 < remainingResetMs
                (accounts.getD (stickyIndex accounts currentIndex) default) modelId now &&
              remainingResetMs
                (accounts.getD (stickyIndex accounts currentIndex) default) modelId now ≤
                MAX_WAIT_BEFORE_ERROR_MS then
            remainingResetMs
              (accounts.getD (stickyIndex accounts currentIndex) default) modelId now
          else 0 } := by
  have hempty : accounts.isEmpty = false := by
    cases accounts with
    | nil => exact absurd rfl hne
    | cons a t => rfl
  unfold stickySelectAccount
  rw [if_neg (by simp [hempty])]
  rw [stickyStep1_of_all_unusable accounts modelId sessionId sessionMap now hall]
  unfold stickyFallback
  have hlt : stickyIndex accounts currentIndex < accounts.length := by
    have hpos : 0 < accounts.length := List.length_pos.mpr hne
    unfold stickyIndex
    split
    · exact hpos
    · next hc => omega
  have hcur : accounts.getD (stickyIndex accounts currentIndex) default ∈ accounts := by
    have hg := List.get?_eq_get hlt
    unfold List.getD
    rw [hg]
    exact List.get_mem accounts (stickyIndex accounts currentIndex) hlt
  rw [hall _ hcur]
  have hfilter : accounts.filter (fun a => baseIsAccountUsable a modelId now) = [] := by
    rw [List.filter_eq_nil_iff]
    intro a ha
    simp [hall a ha]
  rw [hfilter]
  simp only [List.length_nil, gt_iff_lt, lt_self_iff_false, if_false, Bool.false_eq_true]
  set current := accounts.getD (stickyIndex accounts currentIndex) default with hcurdef
  unfold shouldWaitForAccount
  by_cases hbad : current.isInvalid || current.enabled = some false
  · rw [if_pos hbad]
    simp only []
    rcases Bool.or_eq_true_iff.mp hbad with h1 | h1
    · simp [h1]
    · simp only [decide_eq_true_eq] at h1
      simp [h1]
  · rw [if_neg hbad]
    have hor := Bool.or_eq_false_iff.mp (Bool.eq_false_iff.mpr hbad)
    have hni : current.isInvalid = false := hor.1
    have hnd : ¬ (current.enabled = some false) := by
      have h2 := hor.2
      simpa using h2
    by_cases hcond : 0 < remainingResetMs current modelId now ∧
        remainingResetMs current modelId now ≤ MAX_WAIT_BEFORE_ERROR_MS
    · have hcb : (decide (0 < remainingResetMs current modelId now) &&
          decide (remainingResetMs current modelId now ≤ MAX_WAIT_BEFORE_ERROR_MS)) = true := by
        simp [hcond.1, hcond.2]
      rw [if_pos hcb]
      simp [hni, hnd, hcond.1, hcond.2]
    · have hcb : (decide (0 < remainingResetMs current modelId now) &&
          decide (remainingResetMs current modelId now ≤ MAX_WAIT_BEFORE_ERROR_MS)) = false := by
        rcases not_and_or.mp hcond with h | h
        · simp [h]
        · simp [h]
      rw [if_neg (by simp [hcb])]
      have hfull : (!current.isInvalid && decide (current.enabled ≠ some false) &&
          decide (0 < remainingResetMs current modelId now) &&
          decide (remainingResetMs current modelId now ≤ MAX_WAIT_BEFORE_ERROR_MS)) = false := by
        rcases not_and_or.mp hcond with h | h
        · simp [h]
        · simp [h]
      simp only [hfull, Bool.false_eq_true, if_false]

/-- Witness for `stickySelect_amended` at a concrete pool (one invalid account
with a 5000 ms rate limit, nothing usable). -/
theorem stickySelect_amended_witness :
    stickySelectAccount [c9Account] "X" 3 (some "sess") [("sess", "c9@example.com")] 0 =
      { account := none
        index := stickyIndex [c9Account] 3
        waitMs :=
          if !([c9Account].getD (stickyIndex [c9Account] 3) default).isInvalid &&
              ([c9Account].getD (stickyIndex [c9Account] 3) default).enabled ≠ some false &&
              0 < remainingResetMs
                ([c9Account].getD (stickyIndex [c9Account] 3) default) "X" 0 &&
              remainingResetMs
                ([c9Account].getD (stickyIndex [c9Account] 3) default) "X" 0 ≤
                MAX_WAIT_BEFORE_ERROR_MS then
            remainingResetMs ([c9Account].getD (stickyIndex [c9Account] 3) default) "X" 0
          else 0 } :=
  stickySelect_amended [c9Account] "X" 3 (some "sess") [("sess", "c9@example.com")] 0
    (by decide) (by intro a ha; simp only [List.mem_singleton] at ha; rw [ha]; decide)

/-! ## G-format payload shapes (shared by format/request-converter.js and
format/response-converter.js) -/

/-- A `functionCall` part payload; the JSON `args` object is kept opaque. -/
structure FunctionCall where
  id : Option String := none
  name : String
  args : Option String := none
  deriving Repr, DecidableEq

/-- An `inlineData` part payload. -/
structure InlineData where
  mimeType : String
  data : String
  deriving Repr, DecidableEq

/-- A `fileData` part payload. -/
structure FileData where
  mimeType : Option String := none
  fileUri : String
  deriving Repr, DecidableEq

/-- A G-format content part. Exactly one of `text` / `functionCall` /
`functionResponse` / `inlineData` / `fileData` is normally populated; absent
JSON fields are `none` / `false`. `functionResponse` is kept opaque (the
response converter never reads it). -/
structure GPart where
  text : Option String := none
  thought : Bool := false
  thoughtSignature : Option String := none
  redacted : Bool := false
  functionCall : Option FunctionCall := none
  functionResponse : Option String := none
  inlineData : Option InlineData := none
  fileData : Option FileData := none
  deriving Repr, DecidableEq

/-- A G-format content message: `{ role, parts }`. -/
structure GContent where
  role : String
  parts : List GPart
  deriving Repr, DecidableEq

/-! ## Response converter (format/response-converter.js) -/

/-- One entry of `candidate.safetyRatings`. -/
structure SafetyRating where
  category : Option String := none
  blocked : Bool := false
  deriving Repr, DecidableEq

/-- One entry of `groundingMetadata.groundingChunks`: the `web` and
`retrievedContext` sub-objects flattened to their `uri`/`title` fields. -/
structure GroundingChunk where
  webUri : Option String := none
  webTitle : Option String := none
  retrievedUri : Option String := none
  retrievedTitle : Option String := none
  deriving Repr, DecidableEq

/-- `candidate.groundingMetadata`. -/
structure GroundingMetadata where
  webSearchQueries : List String := []
  groundingChunks : List GroundingChunk := []
  deriving Repr, DecidableEq

/-- One entry of `response.candidates`. -/
structure Candidate where
  finishReason : Option String := none
  safetyRatings : List SafetyRating := []
  content : Option GContent := none
  groundingMetadata : Option GroundingMetadata := none
  deriving Repr, DecidableEq

/-- `response.usageMetadata`. -/
structure UsageMetadata where
  promptTokenCount : Option Int := none
  candidatesTokenCount : Option Int := none
  cachedContentTokenCount : Option Int := none
  deriving Repr, DecidableEq

/-- The (unwrapped) upstream response object: the source first unwraps
`googleResponse.response || googleResponse`; this structure is that inner
object. -/
structure GoogleResponse where
  candidates : List Candidate := []
  usageMetadata : Option UsageMetadata := none
  deriving Repr, DecidableEq

/-- An A-format content block as produced by the response converter. Image and
document blocks carry their `source.type` ("base64" or "url"), media type and
payload (base64 data or URL). -/
inductive ResponseBlock where
  | thinking (text : String) (signature : String)
  | redactedThinking (data : String)
  | text (s : String)
  | toolUse (id : String) (name : String) (args : Option String)
      (thoughtSignature : Option String)
  | image (sourceType : String) (mediaType : String) (payload : String)
  | document (sourceType : String) (mediaType : String) (payload : String)
  deriving Repr, DecidableEq

/-- The `usage` object of an A-format message. -/
structure Usage where
  input_tokens : Int
  output_tokens : Int
  cache_read_input_tokens : Int
  cache_creation_input_tokens : Int
  deriving Repr, DecidableEq

/-- The `_groundingMetadata` extension attached by the response converter. -/
structure GroundingOut where
  searchQueries : List String
  groundingChunks : List (String × Option String)
  deriving Repr, DecidableEq

/-- An A-format message object as returned by `convertGoogleToAnthropic`. The
random `msg_<hex>` id is not modelled (the source draws it from
`crypto.randomBytes`). -/
structure AnthropicMessage where
  role : String := "assistant"
  content : List ResponseBlock
  model : String
  stop_reason : String
  stop_sequence : Option String := none
  usage : Usage
  groundingMetadata : Option GroundingOut := none
  deriving Repr, DecidableEq

/-- JS `a || b` on possibly-absent strings (empty string is falsy). -/
def jsOrStr (a b : Option String) : Option String :=
  match a with
  | some s => if s = "" then b else some s
  | none => b

/-- `r.category?.replace('HARM_CATEGORY_', '') || 'UNKNOWN'`
(response-converter.js:37). -/
def categoryLabel (r : SafetyRating) : String :=
  match r.category with
  | some c =>
    let c' := c.replace "HARM_CATEGORY_" ""
    if c' = "" then "UNKNOWN" else c'
  | none => "UNKNOWN"

/-- The part-walking loop of `convertGoogleToAnthropic`
(response-converter.js:73-153): accumulates A-format blocks and the
`hasToolCalls` flag. The signature-cache side effects at lines 92 and 122 only
write to the cache and are not modelled here; `minLen` stands for
`MIN_SIGNATURE_LENGTH` (constants.js is not in the source tree). A generated
tool id is modelled by the placeholder "toolu_generated" (the source draws
random bytes). -/
def convertParts (minLen : Nat) (parts : List GPart) :
    List ResponseBlock × Bool :=
  parts.foldl (fun acc part =>
    match part.text with
    | some t =>
      if part.thought then
        let signature := part.thoughtSignature.getD ""
        if part.redacted || (t = "" && signature ≠ "") then
          (acc.1 ++ [.redactedThinking signature], acc.2)
        else
          (acc.1 ++ [.thinking t signature], acc.2)
      else (acc.1 ++ [.text t], acc.2)
    | none =>
      match part.functionCall with
      | some fc =>
        let toolId :=
          match fc.id with
          | some i => if i = "" then "toolu_generated" else i
          | none => "toolu_generated"
        let sig :=
          match part.thoughtSignature with
          | some s => if s.length ≥ minLen then some s else none
          | none => none
        (acc.1 ++ [.toolUse toolId fc.name fc.args sig], true)
      | none =>
        match part.inlineData with
        | some d => (acc.1 ++ [.image "base64" d.mimeType d.data], acc.2)
        | none =>
          match part.fileData with
          | some f =>
            let mime :=
              match f.mimeType with
              | some s => if s = "" then "application/octet-stream" else s
              | none => "application/octet-stream"
            if mime.startsWith "image/" then
              (acc.1 ++ [.image "url" mime f.fileUri], acc.2)
            else
              (acc.1 ++ [.document "url" mime f.fileUri], acc.2)
          | none => acc) ([], false)

/-- `convertGoogleToAnthropic` (response-converter.js:18-207): safety-blocked
candidates become a single explanatory text block with `end_turn`; otherwise
the candidate's parts are converted, the stop reason mapped, usage computed as
`input = prompt − cached`, grounding metadata attached when present, and — the
C10 guard (line 176) — an empty block list is replaced by a single empty text
block. -/
def convertGoogleToAnthropic (minLen : Nat) (resp : GoogleResponse)
    (model : String) : AnthropicMessage :=
  let firstCandidate := resp.candidates.head?.getD {}
  let finishReason := firstCandidate.finishReason
  let usageMetadata := resp.usageMetadata.getD {}
  let promptTokens := usageMetadata.promptTokenCount.getD 0
  let cachedTokens := usageMetadata.cachedContentTokenCount.getD 0
  if finishReason = some "SAFETY" ∨ finishReason = some "RECITATION" then
    let blockedCategories := String.intercalate ", "
      ((firstCandidate.safetyRatings.filter (fun r => r.blocked)).map categoryLabel)
    let label := if blockedCategories = "" then finishReason.getD "" else blockedCategories
    { content := [.text ("[Content blocked by safety filter: " ++ label ++ "]")]
      model := model
      stop_reason := "end_turn"
      usage := { input_tokens := promptTokens - cachedTokens
                 output_tokens := 0
                 cache_read_input_tokens := cachedTokens
                 cache_creation_input_tokens := 0 } }
  else
    let parts := match firstCandidate.content with
      | some c => c.parts
      | none => []
    let converted := convertParts minLen parts
    let stopReason :=
      if finishReason = some "STOP" then "end_turn"
      else if finishReason = some "MAX_TOKENS" then "max_tokens"
      else if finishReason = some "TOOL_USE" ∨ converted.2 then "tool_use"
      else "end_turn"
    let grounding : Option GroundingOut :=
      match firstCandidate.groundingMetadata with
      | some gm =>
        if gm.webSearchQueries.length > 0 ∨ gm.groundingChunks.length > 0 then
          some { searchQueries := gm.webSearchQueries
                 groundingChunks := gm.groundingChunks.filterMap (fun c =>
                   match jsOrStr c.webUri c.retrievedUri with
                   | some u =>
                     if u = "" then none else some (u, jsOrStr c.webTitle c.retrievedTitle)
                   | none => none) }
        else none
      | none => none
    { content := if converted.1.length > 0 then converted.1 else [.text ""]
      model := model
      stop_reason := stopReason
      usage := { input_tokens := promptTokens - cachedTokens
                 output_tokens := usageMetadata.candidatesTokenCount.getD 0
                 cache_read_input_tokens := cachedTokens
                 cache_creation_input_tokens := 0 }
      groundingMetadata := grounding }

/-- C10: for every upstream response object, the non-streaming response
translator returns a message whose content array is non-empty, and whenever
the (non-safety-blocked) candidate yields no content blocks the result is a
single text block with empty text. -/
theorem convertGoogleToAnthropic_content_nonempty (minLen : Nat)
    (resp : GoogleResponse) (model : String) :
    (convertGoogleToAnthropic minLen resp model).content ≠ [] ∧
    (¬ ((resp.candidates.head?.getD {}).finishReason = some "SAFETY" ∨
        (resp.candidates.head?.getD {}).finishReason = some "RECITATION") →
      (convertParts minLen (match (resp.candidates.head?.getD {}).content with
        | some c => c.parts
        | none => [])).1 = [] →
      (convertGoogleToAnthropic minLen resp model).content = [.text ""]) := by
  unfold convertGoogleToAnthropic
  by_cases hsafe : (resp.candidates.head?.getD {}).finishReason = some "SAFETY" ∨
      (resp.candidates.head?.getD {}).finishReason = some "RECITATION"
  · rw [if_pos hsafe]
    exact ⟨by simp, fun h => absurd hsafe h⟩
  · rw [if_neg hsafe]
    constructor
    · cases hc : (convertParts minLen (match (resp.candidates.head?.getD {}).content with
        | some c => c.parts
        | none => [])).1 with
      | nil => simp [hc]
      | cons b bs => simp [hc]
    · intro _ hempty
      simp [hempty]

/-- Witness for `convertGoogleToAnthropic_content_nonempty` at the empty
response. -/
theorem convertGoogleToAnthropic_content_nonempty_witness :
    (convertGoogleToAnthropic 20 {} "gemini-3-pro").content ≠ [] ∧
    (¬ ((({} : GoogleResponse).candidates.head?.getD {}).finishReason = some "SAFETY" ∨
        (({} : GoogleResponse).candidates.head?.getD {}).finishReason = some "RECITATION") →
      (convertParts 20 (match (({} : GoogleResponse).candidates.head?.getD {}).content with
        | some c => c.parts
        | none => [])).1 = [] →
      (convertGoogleToAnthropic 20 {} "gemini-3-pro").content = [.text ""]) :=
  convertGoogleToAnthropic_content_nonempty 20 {} "gemini-3-pro"

/-! ## A-format request messages (format/request-converter.js) -/

/-- A content block nested inside a tool_result's `content` array. The source
only ever distinguishes `text` and `image` blocks there (payloads kept
opaque); `other` stands for any further block type. -/
inductive TRBlock where
  | text (s : String)
  | image (payload : String)
  | other
  deriving Repr, DecidableEq

/-- The `content` field of a tool_result block: a plain string, an array of
blocks, or absent. -/
inductive TRContent where
  | str (s : String)
  | parts (ps : List TRBlock)
  | absent
  deriving Repr, DecidableEq

/-- An A-format request content block. `thinking` carries its (possibly
absent) signature; `toolResult` carries `tool_use_id` ("" when missing) and
its content; image payloads are opaque. -/
inductive ABlock where
  | text (s : String)
  | thinking (s : String) (signature : Option String)
  | redactedThinking (data : String)
  | toolUse (id : String) (name : String)
  | toolResult (id : String) (content : TRContent)
  | image (payload : String)
  deriving Repr, DecidableEq

/-- The `content` field of an A-format message: a plain string or an array of
blocks (`Array.isArray` distinguishes the two in the source). -/
inductive AContent where
  | str (s : String)
  | blocks (bs : List ABlock)
  deriving Repr, DecidableEq

/-- An A-format request message. -/
structure AMessage where
  role : String
  content : AContent
  deriving Repr, DecidableEq

def isToolResultBlock : ABlock → Bool
  | .toolResult _ _ => true
  | _ => false

def isToolUseBlock : ABlock → Bool
  | .toolUse _ _ => true
  | _ => false

/-! ## Orphaned tool-result rewrite (request-converter.js:207-268) -/

/-- Text extraction from an orphaned tool_result's content
(request-converter.js:234-242): a string content verbatim; an array's text
blocks joined with newlines; otherwise "". -/
def extractOrphanText : TRContent → String
  | .str s => s
  | .parts ps => String.intercalate "\n"
      (ps.filterMap (fun p => match p with | .text s => some s | _ => none))
  | .absent => ""

/-- The image blocks embedded in a tool_result's content array
(request-converter.js:252-257), re-emitted as top-level message blocks. -/
def orphanImages : TRContent → List ABlock
  | .parts ps => ps.filterMap (fun p =>
      match p with | .image d => some (ABlock.image d) | _ => none)
  | _ => []

/-- The per-block `flatMap` of the orphan fix (request-converter.js:229-262):
a tool_result becomes a text block `[Orphaned Tool Result: <id>]\n<text>`
("unknown" when the id is missing) followed by its embedded images; every
other block is kept. -/
def convertOrphanBlock : ABlock → List ABlock
  | .toolResult id c =>
    ABlock.text ("[Orphaned Tool Result: " ++ (if id = "" then "unknown" else id)
      ++ "]\n" ++ extractOrphanText c) :: orphanImages c
  | b => [b]

/-- `hasPrecedingToolUse` (request-converter.js:218-222): the previous message
exists, is assistant/model role, has array content, and contains some
tool_use block — matching ids are not compared. -/
def hasPrecedingToolUse (prev : Option AMessage) : Bool :=
  match prev with
  | some p =>
    (p.role = "assistant" || p.role = "model") &&
    (match p.content with
     | .blocks pbs => pbs.any isToolUseBlock
     | .str _ => false)
  | none => false

/-- The per-message body of the orphan-fix `map` (request-converter.js:212-267):
a user message with array content containing a tool_result, whose predecessor
lacks a tool_use, has its content rewritten through `convertOrphanBlock`. -/
def fixOrphanOne (prev : Option AMessage) (m : AMessage) : AMessage :=
  if m.role = "user" then
    match m.content with
    | .blocks bs =>
      if bs.any isToolResultBlock then
        if hasPrecedingToolUse prev then m
        else { m with content := .blocks (bs.flatMap convertOrphanBlock) }
      else m
    | .str _ => m
  else m

def fixOrphanGo (prev : Option AMessage) : List AMessage → List AMessage
  | [] => []
  | m :: rest => fixOrphanOne prev m :: fixOrphanGo (some m) rest

/-- The whole orphan-fix pass (request-converter.js:212): each message is
rewritten with the original previous message as context (`map` reads the
un-rewritten array). -/
def fixOrphanedToolResults (msgs : List AMessage) : List AMessage :=
  fixOrphanGo none msgs

/-- The original message preceding index `i` (`processedMessages[index - 1]`,
`null` at index 0). -/
def prevAt (msgs : List AMessage) (i : Nat) : Option AMessage :=
  if i = 0 then none else msgs.get? (i - 1)

/-- The content array of a tool_result, `[]` for string or absent content. -/
def trContentParts : TRContent → List TRBlock
  | .parts ps => ps
  | _ => []

theorem fixOrphanGo_get? (msgs : List AMessage) (prev : Option AMessage) (i : Nat) :
    (fixOrphanGo prev msgs).get? i =
      (msgs.get? i).map (fixOrphanOne (if i = 0 then prev else msgs.get? (i - 1))) := by
  induction msgs generalizing prev i with
  | nil => simp [fixOrphanGo]
  | cons m rest ih =>
    cases i with
    | zero => simp [fixOrphanGo]
    | succ j =>
      simp only [fixOrphanGo, List.get?]
      rw [ih (some m) j]
      congr 1
      cases j with
      | zero => simp
      | succ k => simp

/-- The two messages refuting claim C4: an assistant message carrying the
tool-call with id "A", followed by a user tool-result referring to id "B". -/
def c4Messages : List AMessage :=
  [{ role := "assistant", content := .blocks [.toolUse "A" "f"] },
   { role := "user", content := .blocks [.toolResult "B" (.str "done")] }]

/-- C4 counterexample: the tool-result's id "B" does not match the preceding
tool-call's id "A" — so per the claim it should be rewritten to an orphaned
text block — yet the source only checks for the presence of *some* tool_use in
the preceding assistant message and leaves the history unchanged. -/
theorem fixOrphaned_claim_counterexample :
    fixOrphanedToolResults c4Messages = c4Messages ∧
    (match (fixOrphanedToolResults c4Messages).get? 1 with
     | some m =>
       match m.content with
       | .blocks bs => bs.any isToolResultBlock
       | .str _ => false
     | none => false) = true ∧
    ([ABlock.toolUse "A" "f"].any (fun b =>
      match b with | .toolUse i _ => i = "B" | _ => false)) = false := by
  refine ⟨by decide, by decide, by decide⟩

/-- C4 (amended): a user message containing a tool-result whose immediately
preceding message is not an assistant-role message carrying at least one
tool-call — matching of ids is not checked — has every tool-result replaced by
a text block `[Orphaned Tool Result: <id>]` (id "unknown" when missing)
followed by the result's text content, with every embedded image preserved and
no tool-result block remaining. -/
theorem fixOrphaned_amended (msgs : List AMessage) (i : Nat) (m : AMessage)
    (bs : List ABlock)
    (hm : msgs.get? i = some m)
    (hrole : m.role = "user")
    (hc : m.content = .blocks bs)
    (hhave : bs.any isToolResultBlock = true)
    (hnoprec : hasPrecedingToolUse (prevAt msgs i) = false) :
    (fixOrphanedToolResults msgs).get? i =
      some { m with content := .blocks (bs.flatMap convertOrphanBlock) } ∧
    (∀ b ∈ bs.flatMap convertOrphanBlock, isToolResultBlock b = false) ∧
    (∀ id c, ABlock.toolResult id c ∈ bs →
      (ABlock.text ("[Orphaned Tool Result: " ++ (if id = "" then "unknown" else id)
        ++ "]\n" ++ extractOrphanText c) ∈ bs.flatMap convertOrphanBlock) ∧
      (∀ d, TRBlock.image d ∈ trContentParts c →
        ABlock.image d ∈ bs.flatMap convertOrphanBlock)) := by
  refine ⟨?_, ?_, ?_⟩
  · unfold fixOrphanedToolResults
    rw [fixOrphanGo_get?, hm]
    have hfix : fixOrphanOne (prevAt msgs i) m =
        { m with content := .blocks (bs.flatMap convertOrphanBlock) } := by
      unfold fixOrphanOne
      rw [if_pos hrole, hc]
      dsimp only
      rw [hhave, hnoprec]
      simp
    have hpa : (if i = 0 then (none : Option AMessage) else msgs.get? (i - 1)) =
        prevAt msgs i := rfl
    rw [hpa]
    show some (fixOrphanOne (prevAt msgs i) m) =
      some { m with content := .blocks (bs.flatMap convertOrphanBlock) }
    rw [hfix]
  · intro b hb
    rw [List.mem_flatMap] at hb
    obtain ⟨a, _, hba⟩ := hb
    cases a with
    | toolResult id c =>
      simp only [convertOrphanBlock, List.mem_cons] at hba
      rcases hba with rfl | himg
      · rfl
      · unfold orphanImages at himg
        cases c with
        | parts ps =>
          rw [List.mem_filterMap] at himg
          obtain ⟨p, _, hp⟩ := himg
          cases p with
          | image d => simp at hp; rw [← hp]; rfl
          | text s => simp at hp
          | other => simp at hp
        | str s => simp at himg
        | absent => simp at himg
    | text s => simp only [convertOrphanBlock, List.mem_singleton] at hba; rw [hba]; rfl
    | thinking s sig => simp only [convertOrphanBlock, List.mem_singleton] at hba; rw [hba]; rfl
    | redactedThinking d => simp only [convertOrphanBlock, List.mem_singleton] at hba; rw [hba]; rfl
    | toolUse id name => simp only [convertOrphanBlock, List.mem_singleton] at hba; rw [hba]; rfl
    | image payload => simp only [convertOrphanBlock, List.mem_singleton] at hba; rw [hba]; rfl
  · intro id c hmem
    constructor
    · rw [List.mem_flatMap]
      exact ⟨.toolResult id c, hmem, by simp [convertOrphanBlock]⟩
    · intro d hd
      rw [List.mem_flatMap]
      refine ⟨.toolResult id c, hmem, ?_⟩
      simp only [convertOrphanBlock, List.mem_cons]
      right
      unfold orphanImages
      cases c with
      | parts ps =>
        rw [List.mem_filterMap]
        exact ⟨.image d, by simpa [trContentParts] using hd, rfl⟩
      | str s => simp [trContentParts] at hd
      | absent => simp [trContentParts] at hd

/-- The message used as witness input for the amended C4 theorem. -/
def c4wMsg : AMessage :=
  { role := "user"
    content := .blocks [.toolResult "T" (.parts [.text "done", .image "img1"])] }

/-- Witness for `fixOrphaned_amended` at a concrete single-message history. -/
theorem fixOrphaned_amended_witness :
    (fixOrphanedToolResults [c4wMsg]).get? 0 =
      some { c4wMsg with
        content := AContent.blocks
          (([ABlock.toolResult "T"
              (TRContent.parts [TRBlock.text "done", TRBlock.image "img1"])]).flatMap
            convertOrphanBlock) } :=
  (fixOrphaned_amended [c4wMsg] 0 c4wMsg
    [ABlock.toolResult "T" (TRContent.parts [TRBlock.text "done", TRBlock.image "img1"])]
    (by rfl) (by rfl) (by rfl) (by decide) (by decide)).1

/-! ## Message-to-contents conversion and the empty-parts guard
(request-converter.js:273-320) -/

/-- Signature validity. Modelled from the spec: a signature below the minimum
length threshold (`MIN_SIGNATURE_LENGTH`, constants.js not in the source tree)
is treated as empty/invalid. -/
def isValidSig (minLen : Nat) : Option String → Bool
  | some s => minLen ≤ s.length
  | none => false

/-- A reasoning block (thinking or redacted) lacking a valid signature. -/
def isUnsignedThinkingBlock (minLen : Nat) : ABlock → Bool
  | .thinking _ sig => !(isValidSig minLen sig)
  | .redactedThinking d => !(isValidSig minLen (some d))
  | _ => false

/-- A reasoning block of either kind. -/
def isThinkingKind : ABlock → Bool
  | .thinking _ _ => true
  | .redactedThinking _ => true
  | _ => false

/-- Modelled from the spec: `restoreThinkingSignatures` (thinking-utils.js is
not in the source tree) — for each unsigned thinking block, attach the
signature the cache returns for it, if any; `restore` stands for the
signature-cache lookup. -/
def restoreThinkingSignatures (restore : String → Option String) (minLen : Nat)
    (bs : List ABlock) : List ABlock :=
  bs.map (fun b =>
    match b with
    | .thinking s sig =>
      if isValidSig minLen sig then b
      else
        match restore s with
        | some sig2 => .thinking s (some sig2)
        | none => b
    | _ => b)

/-- Modelled from the spec: `removeTrailingThinkingBlocks` (thinking-utils.js
is not in the source tree) — remove the maximal trailing run of unsigned
reasoning blocks. -/
def removeTrailingThinkingBlocks (minLen : Nat) (bs : List ABlock) : List ABlock :=
  (bs.reverse.dropWhile (isUnsignedThinkingBlock minLen)).reverse

/-- Modelled from the spec: `reorderAssistantContent` (thinking-utils.js is
not in the source tree) — reorder an assistant message's blocks to
reasoning → other → tool-call, keeping relative order inside each group. -/
def reorderAssistantContent (bs : List ABlock) : List ABlock :=
  bs.filter isThinkingKind ++
  bs.filter (fun b => !isThinkingKind b && !isToolUseBlock b) ++
  bs.filter isToolUseBlock

/-- Modelled from the spec: `convertRole` (content-converter.js is not in the
source tree) — assistant/model roles map to the upstream "model" role,
everything else to "user". -/
def convertRole (r : String) : String :=
  if r = "assistant" || r = "model" then "model" else "user"

/-- Modelled from the spec: the per-block conversion inside
`convertContentToParts` (content-converter.js is not in the source tree) —
each A-format block becomes one upstream part; payloads are carried opaquely. -/
def blockToPart : ABlock → GPart
  | .text s => { text := some s }
  | .thinking s sig => { text := some s, thought := true, thoughtSignature := sig }
  | .redactedThinking d => { thought := true, thoughtSignature := some d, redacted := true }
  | .toolUse id name => { functionCall := some { id := some id, name := name } }
  | .toolResult id _ => { functionResponse := some id }
  | .image payload => { inlineData := some { mimeType := "", data := payload } }

/-- Modelled from the spec: `convertContentToParts` (content-converter.js is
not in the source tree) — a string content becomes one text part, an array
maps block-by-block. -/
def convertContentToParts : AContent → List GPart
  | .str s => [{ text := some s }]
  | .blocks bs => bs.map blockToPart

/-- The message loop of `convertAnthropicToGoogle`
(request-converter.js:273-313): assistant/model messages with array content go
through signature restoration, trailing-unsigned removal and reordering; every
message is converted to parts; and — the C6 guard (lines 297-306) — an empty
parts list is replaced by a single period placeholder part. -/
def buildContents (minLen : Nat) (restore : String → Option String)
    (msgs : List AMessage) : List GContent :=
  msgs.map (fun msg =>
    let msgContent :=
      if msg.role = "assistant" || msg.role = "model" then
        match msg.content with
        | .blocks bs =>
          AContent.blocks (reorderAssistantContent
            (removeTrailingThinkingBlocks minLen
              (restoreThinkingSignatures restore minLen bs)))
        | c => c
      else msg.content
    let parts := convertContentToParts msgContent
    let parts := if parts.isEmpty then [{ text := some "." }] else parts
    { role := convertRole msg.role, parts := parts })

/-- Modelled from the spec: `filterUnsignedThinkingBlocks` (thinking-utils.js
is not in the source tree) — for family-A (Claude) targets, drop thought parts
lacking a valid signature from each model-role content. -/
def filterUnsignedThinkingBlocks (minLen : Nat) (contents : List GContent) :
    List GContent :=
  contents.map (fun c =>
    if c.role = "model" then
      { c with parts := c.parts.filter (fun p =>
          !(p.thought && !(isValidSig minLen p.thoughtSignature))) }
    else c)

/-- The contents-building portion of `convertAnthropicToGoogle`
(request-converter.js:273-320): the message loop followed, for Claude models,
by the unsigned-thinking filter. -/
def convertMessagesContents (isClaudeModel : Bool) (minLen : Nat)
    (restore : String → Option String) (msgs : List AMessage) : List GContent :=
  let contents := buildContents minLen restore msgs
  if isClaudeModel then filterUnsignedThinkingBlocks minLen contents else contents

theorem dropWhile_head_not {α : Type} (p : α → Bool) (l : List α) (x : α)
    (h : (l.dropWhile p).head? = some x) : p x = false := by
  induction l with
  | nil => simp [List.dropWhile] at h
  | cons a t ih =>
    rw [List.dropWhile_cons] at h
    by_cases hp : p a
    · rw [if_pos hp] at h
      exact ih h
    · rw [if_neg hp] at h
      simp only [List.head?_cons, Option.some.injEq] at h
      rw [← h]
      exact Bool.eq_false_iff.mpr hp

theorem removeTrailing_has_signed (minLen : Nat) (bs : List ABlock)
    (h : removeTrailingThinkingBlocks minLen bs ≠ []) :
    ∃ z ∈ removeTrailingThinkingBlocks minLen bs,
      isUnsignedThinkingBlock minLen z = false := by
  unfold removeTrailingThinkingBlocks at h ⊢
  cases hl : bs.reverse.dropWhile (isUnsignedThinkingBlock minLen) with
  | nil => rw [hl] at h; simp at h
  | cons a t =>
    refine ⟨a, ?_, ?_⟩
    · rw [List.mem_reverse]
      exact List.mem_cons_self a t
    · exact dropWhile_head_not (isUnsignedThinkingBlock minLen) bs.reverse a
        (by rw [hl]; rfl)

theorem mem_reorderAssistantContent (b : ABlock) (bs : List ABlock)
    (hb : b ∈ bs) : b ∈ reorderAssistantContent bs := by
  unfold reorderAssistantContent
  by_cases ht : isThinkingKind b
  · exact List.mem_append.mpr (Or.inl (List.mem_append.mpr
      (Or.inl (List.mem_filter.mpr ⟨hb, ht⟩))))
  · by_cases hu : isToolUseBlock b
    · exact List.mem_append.mpr (Or.inr (List.mem_filter.mpr ⟨hb, hu⟩))
    · refine List.mem_append.mpr (Or.inl (List.mem_append.mpr
        (Or.inr (List.mem_filter.mpr ⟨hb, ?_⟩))))
      simp [ht, hu]

theorem blockToPart_kept_of_signed (minLen : Nat) (z : ABlock)
    (hz : isUnsignedThinkingBlock minLen z = false) :
    (!((blockToPart z).thought && !(isValidSig minLen (blockToPart z).thoughtSignature))) = true := by
  cases z with
  | thinking s sig =>
    simp only [isUnsignedThinkingBlock, Bool.not_eq_false'] at hz
    simp [blockToPart, hz]
  | redactedThinking d =>
    simp only [isUnsignedThinkingBlock, Bool.not_eq_false'] at hz
    simp [blockToPart, hz]
  | text s => rfl
  | toolUse id name => rfl
  | toolResult id c => rfl
  | image payload => rfl

/-- C6: every content message in the outbound payload built by the message
loop (and, for Claude targets, the unsigned-thinking filter) has a non-empty
parts list: whenever all of a message's blocks are filtered away, the period
placeholder survives in their place. -/
theorem contents_parts_nonempty (isClaudeModel : Bool) (minLen : Nat)
    (restore : String → Option String) (msgs : List AMessage) :
    ∀ c ∈ convertMessagesContents isClaudeModel minLen restore msgs,
      c.parts ≠ [] := by
  intro c hc
  unfold convertMessagesContents at hc
  have hbuild : ∀ c0 ∈ buildContents minLen restore msgs, c0.parts ≠ [] := by
    intro c0 hc0
    unfold buildContents at hc0
    rw [List.mem_map] at hc0
    obtain ⟨msg, _, rfl⟩ := hc0
    dsimp only
    cases hpe : (convertContentToParts
        (if msg.role = "assistant" || msg.role = "model" then
          match msg.content with
          | .blocks bs =>
            AContent.blocks (reorderAssistantContent
              (removeTrailingThinkingBlocks minLen
                (restoreThinkingSignatures restore minLen bs)))
          | c => c
        else msg.content)).isEmpty with
    | true => simp [hpe]
    | false =>
      simp only [hpe, if_false, Bool.false_eq_true]
      intro he
      rw [he] at hpe
      simp [List.isEmpty] at hpe
  by_cases hcl : isClaudeModel
  · rw [hcl] at hc
    simp only [if_true] at hc
    unfold filterUnsignedThinkingBlocks at hc
    rw [List.mem_map] at hc
    obtain ⟨c0, hc0, rfl⟩ := hc
    by_cases hrole : c0.role = "model"
    · rw [if_pos hrole]
      -- c0 comes from the message loop; analyse its parts
      unfold buildContents at hc0
      rw [List.mem_map] at hc0
      obtain ⟨msg, _, rfl⟩ := hc0
      dsimp only at hrole ⊢
      by_cases hproc : msg.role = "assistant" || msg.role = "model"
      · rw [if_pos hproc]
        cases hmc : msg.content with
        | str s =>
          simp [convertContentToParts, List.isEmpty]
        | blocks bs =>
          dsimp only
          set rt := removeTrailingThinkingBlocks minLen
            (restoreThinkingSignatures restore minLen bs) with hrt
          cases hre : reorderAssistantContent rt with
          | nil =>
            simp [convertContentToParts, List.isEmpty]
          | cons rb rrest =>
            have hmapne : (convertContentToParts (AContent.blocks (rb :: rrest))).isEmpty = false := by
              simp [convertContentToParts, List.isEmpty]
            rw [hmapne]
            simp only [Bool.false_eq_true, if_false]
            have hrtne : rt ≠ [] := by
              intro he
              rw [he] at hre
              simp [reorderAssistantContent] at hre
            obtain ⟨z, hzmem, hzsig⟩ := removeTrailing_has_signed minLen _ hrtne
            have hzre : z ∈ reorderAssistantContent rt := mem_reorderAssistantContent z rt hzmem
            rw [hre] at hzre
            have hpmem : blockToPart z ∈ (convertContentToParts (AContent.blocks (rb :: rrest))) := by
              simp only [convertContentToParts]
              exact List.mem_map.mpr ⟨z, hzre, rfl⟩
            have hkeep := blockToPart_kept_of_signed minLen z hzsig
            intro hfe
            have : blockToPart z ∈ ((convertContentToParts (AContent.blocks (rb :: rrest))).filter
                (fun p => !(p.thought && !(isValidSig minLen p.thoughtSignature)))) :=
              List.mem_filter.mpr ⟨hpmem, hkeep⟩
            rw [hfe] at this
            simp at this
      · -- not an assistant/model message, yet its converted role is "model":
        -- impossible, convertRole then yields "user"
        exfalso
        unfold convertRole at hrole
        rw [if_neg hproc] at hrole
        simp at hrole
    · rw [if_neg hrole]
      exact hbuild _ hc0
  · rw [Bool.eq_false_iff.mpr hcl] at hc
    simp only [Bool.false_eq_true, if_false] at hc
    exact hbuild c hc

/-- The message used as witness input for C6: an assistant turn consisting of a
single unsigned thinking block, which the pipeline replaces by the period
placeholder. -/
def c6Msg : AMessage :=
  { role := "assistant", content := .blocks [.thinking "hmm" none] }

/-- Witness for `contents_parts_nonempty` at a concrete message list. -/
theorem contents_parts_nonempty_witness :
    ({ role := "model", parts := [{ text := some "." }] } : GContent).parts ≠ [] :=
  contents_parts_nonempty true 20 (fun _ => none) [c6Msg]
    { role := "model", parts := [{ text := some "." }] } (by decide)

/-! ## Signature cache (format/signature-cache.js) -/

/-- An entry of the tool-call-id and session stores: `{ signature, timestamp }`. -/
structure SigEntry where
  signature : String
  timestamp : Int
  deriving Repr, DecidableEq

/-- An entry of the thinking-signature store: `{ modelFamily, timestamp }`. -/
structure FamEntry where
  modelFamily : String
  timestamp : Int
  deriving Repr, DecidableEq

/-- `MAX_SIGNATURE_CACHE_SIZE` (signature-cache.js:34). -/
def MAX_SIGNATURE_CACHE_SIZE : Nat := 10000

/-- `MAX_THINKING_CACHE_SIZE` (signature-cache.js:35). -/
def MAX_THINKING_CACHE_SIZE : Nat := 5000

/-- `MAX_SESSION_CACHE_SIZE` (signature-cache.js:36). -/
def MAX_SESSION_CACHE_SIZE : Nat := 1000

/-- `GEMINI_SIGNATURE_CACHE_TTL_MS`. Modelled from the spec: constants.js is
not in the source tree; the spec gives the TTL as 1 hour. -/
def GEMINI_SIGNATURE_CACHE_TTL_MS : Int := 3600000

/-- The common insert step of the three `cache*` functions
(signature-cache.js:123-136, 254-267, 306-319): when the store has reached its
size bound, delete the first (oldest-inserted) key of the `Map`, then `set`. -/
def cachePut {α : Type} (maxSize : Nat) (store : List (String × α))
    (k : String) (v : α) : List (String × α) :=
  let store' :=
    if store.length ≥ maxSize then
      match store.head? with
      | some p => mapDelete store p.1
      | none => store
    else store
  mapSet store' k v

/-- `cacheSignature` (signature-cache.js:120): no-op on falsy id or signature;
otherwise evict-if-full and store `{ signature, timestamp: Date.now() }`. -/
def cacheSignature (store : List (String × SigEntry)) (toolUseId signature : String)
    (now : Int) : List (String × SigEntry) :=
  if toolUseId = "" || signature = "" then store
  else cachePut MAX_SIGNATURE_CACHE_SIZE store toolUseId
    { signature := signature, timestamp := now }

/-- `getCachedSignature` (signature-cache.js:144): null on falsy id or missing
entry; an entry past the TTL is deleted and null returned; otherwise the
signature. Returns the value and the (possibly shrunk) store. -/
def getCachedSignature (store : List (String × SigEntry)) (toolUseId : String)
    (now : Int) : Option String × List (String × SigEntry) :=
  if toolUseId = "" then (none, store)
  else
    match store.lookup toolUseId with
    | none => (none, store)
    | some entry =>
      if now - entry.timestamp > GEMINI_SIGNATURE_CACHE_TTL_MS then
        (none, mapDelete store toolUseId)
      else (some entry.signature, store)

/-- `cacheThinkingSignature` (signature-cache.js:251): no-op on a falsy or
too-short signature; otherwise evict-if-full and store the model family keyed
by the signature. `minLen` stands for `MIN_SIGNATURE_LENGTH` (constants.js is
not in the source tree). -/
def cacheThinkingSignature (minLen : Nat) (store : List (String × FamEntry))
    (signature modelFamily : String) (now : Int) : List (String × FamEntry) :=
  if signature = "" || signature.length < minLen then store
  else cachePut MAX_THINKING_CACHE_SIZE store signature
    { modelFamily := modelFamily, timestamp := now }

/-- `getCachedSignatureFamily` (signature-cache.js:275): TTL-checked lookup in
the thinking store. -/
def getCachedSignatureFamily (store : List (String × FamEntry))
    (signature : String) (now : Int) : Option String × List (String × FamEntry) :=
  if signature = "" then (none, store)
  else
    match store.lookup signature with
    | none => (none, store)
    | some entry =>
      if now - entry.timestamp > GEMINI_SIGNATURE_CACHE_TTL_MS then
        (none, mapDelete store signature)
      else (some entry.modelFamily, store)

/-- `cacheSessionSignature` (signature-cache.js:303): session-keyed insert. -/
def cacheSessionSignature (store : List (String × SigEntry))
    (sessionId signature : String) (now : Int) : List (String × SigEntry) :=
  if sessionId = "" || signature = "" then store
  else cachePut MAX_SESSION_CACHE_SIZE store sessionId
    { signature := signature, timestamp := now }

/-- `getSessionSignature` (signature-cache.js:327): TTL-checked lookup in the
session store. -/
def getSessionSignature (store : List (String × SigEntry)) (sessionId : String)
    (now : Int) : Option String × List (String × SigEntry) :=
  if sessionId = "" then (none, store)
  else
    match store.lookup sessionId with
    | none => (none, store)
    | some entry =>
      if now - entry.timestamp > GEMINI_SIGNATURE_CACHE_TTL_MS then
        (none, mapDelete store sessionId)
      else (some entry.signature, store)

theorem mapSet_length_le {α : Type} (m : List (String × α)) (k : String) (v : α) :
    (mapSet m k v).length ≤ m.length + 1 := by
  unfold mapSet
  by_cases h : m.any (fun p => p.1 = k)
  · rw [if_pos h, List.length_map]
    omega
  · rw [if_neg h, List.length_append]
    simp

theorem cachePut_length {α : Type} (maxSize : Nat) (store : List (String × α))
    (k : String) (v : α) (hmax : 1 ≤ maxSize) (hlen : store.length ≤ maxSize) :
    (cachePut maxSize store k v).length ≤ maxSize := by
  unfold cachePut
  by_cases hfull : store.length ≥ maxSize
  · rw [if_pos hfull]
    cases store with
    | nil => simp at hfull; omega
    | cons p rest =>
      simp only [List.head?_cons]
      have hdel : mapDelete (p :: rest) p.1 = rest := by
        unfold mapDelete
        rw [List.eraseP_cons_of_pos]
        simp
      rw [hdel]
      have := mapSet_length_le rest k v
      simp only [List.length_cons] at hlen hfull
      omega
  · rw [if_neg hfull]
    show (mapSet store k v).length ≤ maxSize
    have := mapSet_length_le store k v
    omega

theorem cachePut_full_evicts {α : Type} (maxSize : Nat) (p : String × α)
    (ps : List (String × α)) (k : String) (v : α)
    (hfull : (p :: ps).length ≥ maxSize) :
    cachePut maxSize (p :: ps) k v = mapSet ps k v := by
  unfold cachePut
  rw [if_pos hfull]
  simp only [List.head?_cons]
  have hdel : mapDelete (p :: ps) p.1 = ps := by
    unfold mapDelete
    rw [List.eraseP_cons_of_pos]
    simp
  rw [hdel]

/-- C7: each of the three signature stores never exceeds its bound (10000 /
5000 / 1000 entries); an insert into a full store evicts the oldest-inserted
entry first (for each of the three stores); a lookup of an entry older than
the TTL returns null and removes the entry (in each of the three stores); and
no lookup in any store ever returns a value older than the TTL. -/
theorem signatureCache_bounds_and_ttl
    (s1 : List (String × SigEntry)) (s2 : List (String × FamEntry))
    (s3 : List (String × SigEntry)) (minLen : Nat)
    (toolId sig fam sid : String) (now : Int)
    (h1 : s1.length ≤ MAX_SIGNATURE_CACHE_SIZE)
    (h2 : s2.length ≤ MAX_THINKING_CACHE_SIZE)
    (h3 : s3.length ≤ MAX_SESSION_CACHE_SIZE) :
    (cacheSignature s1 toolId sig now).length ≤ MAX_SIGNATURE_CACHE_SIZE ∧
    (cacheThinkingSignature minLen s2 sig fam now).length ≤ MAX_THINKING_CACHE_SIZE ∧
    (cacheSessionSignature s3 sid sig now).length ≤ MAX_SESSION_CACHE_SIZE ∧
    (∀ p ps, s1 = p :: ps → s1.length ≥ MAX_SIGNATURE_CACHE_SIZE →
      toolId ≠ "" → sig ≠ "" →
      cacheSignature s1 toolId sig now =
        mapSet ps toolId { signature := sig, timestamp := now }) ∧
    (∀ p ps, s2 = p :: ps → s2.length ≥ MAX_THINKING_CACHE_SIZE →
      sig ≠ "" → ¬ sig.length < minLen →
      cacheThinkingSignature minLen s2 sig fam now =
        mapSet ps sig { modelFamily := fam, timestamp := now }) ∧
    (∀ p ps, s3 = p :: ps → s3.length ≥ MAX_SESSION_CACHE_SIZE →
      sid ≠ "" → sig ≠ "" →
      cacheSessionSignature s3 sid sig now =
        mapSet ps sid { signature := sig, timestamp := now }) ∧
    (∀ e, s1.lookup toolId = some e →
      now - e.timestamp > GEMINI_SIGNATURE_CACHE_TTL_MS → toolId ≠ "" →
      getCachedSignature s1 toolId now = (none, mapDelete s1 toolId)) ∧
    (∀ e, s2.lookup sig = some e →
      now - e.timestamp > GEMINI_SIGNATURE_CACHE_TTL_MS → sig ≠ "" →
      getCachedSignatureFamily s2 sig now = (none, mapDelete s2 sig)) ∧
    (∀ e, s3.lookup sid = some e →
      now - e.timestamp > GEMINI_SIGNATURE_CACHE_TTL_MS → sid ≠ "" →
      getSessionSignature s3 sid now = (none, mapDelete s3 sid)) ∧
    (∀ v st, getCachedSignature s1 toolId now = (some v, st) →
      ∃ e, s1.lookup toolId = some e ∧
        now - e.timestamp ≤ GEMINI_SIGNATURE_CACHE_TTL_MS ∧ v = e.signature) ∧
    (∀ v st, getCachedSignatureFamily s2 sig now = (some v, st) →
      ∃ e, s2.lookup sig = some e ∧
        now - e.timestamp ≤ GEMINI_SIGNATURE_CACHE_TTL_MS ∧ v = e.modelFamily) ∧
    (∀ v st, getSessionSignature s3 sid now = (some v, st) →
      ∃ e, s3.lookup sid = some e ∧
        now - e.timestamp ≤ GEMINI_SIGNATURE_CACHE_TTL_MS ∧ v = e.signature) := by
  refine ⟨?_, ?_, ?_, ?_, ?_, ?_, ?_, ?_, ?_, ?_, ?_, ?_⟩
  · unfold cacheSignature
    by_cases hg : toolId = "" || sig = ""
    · rw [if_pos hg]; exact h1
    · rw [if_neg hg]
      exact cachePut_length _ _ _ _ (by unfold MAX_SIGNATURE_CACHE_SIZE; omega) h1
  · unfold cacheThinkingSignature
    by_cases hg : sig = "" || sig.length < minLen
    · rw [if_pos hg]; exact h2
    · rw [if_neg hg]
      exact cachePut_length _ _ _ _ (by unfold MAX_THINKING_CACHE_SIZE; omega) h2
  · unfold cacheSessionSignature
    by_cases hg : sid = "" || sig = ""
    · rw [if_pos hg]; exact h3
    · rw [if_neg hg]
      exact cachePut_length _ _ _ _ (by unfold MAX_SESSION_CACHE_SIZE; omega) h3
  · intro p ps hs hfull hid hsig
    unfold cacheSignature
    rw [if_neg (by simp [hid, hsig])]
    rw [hs] at hfull ⊢
    exact cachePut_full_evicts _ p ps toolId _ hfull
  · intro p ps hs hfull hsig hlen
    unfold cacheThinkingSignature
    rw [if_neg (by simp [hsig, hlen])]
    rw [hs] at hfull ⊢
    exact cachePut_full_evicts _ p ps sig _ hfull
  · intro p ps hs hfull hsid hsig
    unfold cacheSessionSignature
    rw [if_neg (by simp [hsid, hsig])]
    rw [hs] at hfull ⊢
    exact cachePut_full_evicts _ p ps sid _ hfull
  · intro e he hexp hid
    unfold getCachedSignature
    rw [if_neg hid, he]
    dsimp only
    rw [if_pos hexp]
  · intro e he hexp hsig
    unfold getCachedSignatureFamily
    rw [if_neg hsig, he]
    dsimp only
    rw [if_pos hexp]
  · intro e he hexp hsid
    unfold getSessionSignature
    rw [if_neg hsid, he]
    dsimp only
    rw [if_pos hexp]
  · intro v st hget
    unfold getCachedSignature at hget
    by_cases hid : toolId = ""
    · rw [if_pos hid] at hget
      simp at hget
    · rw [if_neg hid] at hget
      cases he : s1.lookup toolId with
      | none => rw [he] at hget; simp at hget
      | some e =>
        rw [he] at hget
        dsimp only at hget
        by_cases hexp : now - e.timestamp > GEMINI_SIGNATURE_CACHE_TTL_MS
        · rw [if_pos hexp] at hget
          simp at hget
        · rw [if_neg hexp] at hget
          simp only [Prod.mk.injEq, Option.some.injEq] at hget
          exact ⟨e, rfl, by omega, hget.1.symm⟩
  · intro v st hget
    unfold getCachedSignatureFamily at hget
    by_cases hsig : sig = ""
    · rw [if_pos hsig] at hget
      simp at hget
    · rw [if_neg hsig] at hget
      cases he : s2.lookup sig with
      | none => rw [he] at hget; simp at hget
      | some e =>
        rw [he] at hget
        dsimp only at hget
        by_cases hexp : now - e.timestamp > GEMINI_SIGNATURE_CACHE_TTL_MS
        · rw [if_pos hexp] at hget
          simp at hget
        · rw [if_neg hexp] at hget
          simp only [Prod.mk.injEq, Option.some.injEq] at hget
          exact ⟨e, rfl, by omega, hget.1.symm⟩
  · intro v st hget
    unfold getSessionSignature at hget
    by_cases hsid : sid = ""
    · rw [if_pos hsid] at hget
      simp at hget
    · rw [if_neg hsid] at hget
      cases he : s3.lookup sid with
      | none => rw [he] at hget; simp at hget
      | some e =>
        rw [he] at hget
        dsimp only at hget
        by_cases hexp : now - e.timestamp > GEMINI_SIGNATURE_CACHE_TTL_MS
        · rw [if_pos hexp] at hget
          simp at hget
        · rw [if_neg hexp] at hget
          simp only [Prod.mk.injEq, Option.some.injEq] at hget
          exact ⟨e, rfl, by omega, hget.1.symm⟩

/-- Witness for `signatureCache_bounds_and_ttl` at concrete stores. -/
theorem signatureCache_bounds_and_ttl_witness :
    (cacheSignature [("t1", { signature := "sigv", timestamp := 0 })]
      "t2" "sigw" 5).length ≤ MAX_SIGNATURE_CACHE_SIZE :=
  (signatureCache_bounds_and_ttl
    [("t1", { signature := "sigv", timestamp := 0 })] [] [] 20
    "t2" "sigw" "claude" "sess" 5 (by decide) (by decide) (by decide)).1

/-! ## Generation config and the thinking-budget bump
(request-converter.js:322-387, 447-456) -/

/-- The `thinkingConfig` object attached for thinking models: Claude targets
get `{ include_thoughts, thinking_budget }`, Gemini targets
`{ includeThoughts, thinkingBudget }`; both are modelled by this structure. -/
structure ThinkingConfig where
  includeThoughts : Bool
  budget : Option Int
  deriving Repr, DecidableEq

/-- The fields of `generationConfig` the C8 claim concerns. The float
pass-throughs (`temperature`, `topP`, `topK`) and `stopSequences`
(request-converter.js:326-337) are independent copies of request fields and
are not modelled (floating point). -/
structure GenerationConfig where
  maxOutputTokens : Option Int := none
  thinkingConfig : Option ThinkingConfig := none
  deriving Repr, DecidableEq

/-- JS truthiness of a possibly-absent number: `0` and `undefined` are falsy. -/
def truthyInt : Option Int → Option Int
  | some x => if x = 0 then none else some x
  | none => none

/-- JS `a || b` on possibly-absent numbers. -/
def jsOrInt (a b : Option Int) : Option Int :=
  match truthyInt a with
  | some x => some x
  | none => b

/-- The `maxOutputTokens` / `thinkingConfig` portion of
`convertAnthropicToGoogle` (request-converter.js:322-325, 339-387, 447-456):
`maxOutputTokens` is set from a truthy `max_tokens`; thinking Claude targets
with a truthy budget (`thinking?.budget_tokens || config.defaultThinkingBudget`)
bump `maxOutputTokens` to `budget + 8192` when it is ≤ the budget; thinking
Gemini targets only attach `thinkingBudget` (defaulting to 16000) with no
bump; finally Gemini targets cap `maxOutputTokens` at
`GEMINI_MAX_OUTPUT_TOKENS` (passed as `geminiMaxOutputTokens`; constants.js is
not in the source tree). -/
def buildGenerationConfig (geminiMaxOutputTokens : Int) (family : String)
    (isThinking : Bool) (maxTokens budgetReq defaultBudget : Option Int) :
    GenerationConfig :=
  let mot0 := truthyInt maxTokens
  let result :=
    if isThinking then
      if family = "claude" then
        match truthyInt (jsOrInt budgetReq defaultBudget) with
        | some b =>
          { maxOutputTokens :=
              match mot0 with
              | some m => if m ≤ b then some (b + 8192) else some m
              | none => none
            thinkingConfig := some { includeThoughts := true, budget := some b } }
        | none =>
          { maxOutputTokens := mot0
            thinkingConfig := some { includeThoughts := true, budget := none } }
      else if family = "gemini" then
        { maxOutputTokens := mot0
          thinkingConfig := some { includeThoughts := true,
                                   budget := some ((truthyInt (jsOrInt budgetReq defaultBudget)).getD 16000) } }
      else { maxOutputTokens := mot0, thinkingConfig := none }
    else { maxOutputTokens := mot0, thinkingConfig := none }
  if family = "gemini" then
    { result with
      maxOutputTokens :=
        match result.maxOutputTokens with
        | some m =>
          if m > geminiMaxOutputTokens then some geminiMaxOutputTokens else some m
        | none => none }
  else result

/-- C8 counterexample: a Gemini thinking model with budget 16000 and
`max_tokens` 1000 ≤ 16000 keeps `maxOutputTokens = 1000` — the claim's
`budget + 8192 = 24192` bump never happens for Gemini targets. -/
theorem buildGenerationConfig_claim_counterexample :
    (buildGenerationConfig 65536 "gemini" true (some 1000) (some 16000)
      none).maxOutputTokens = some 1000 ∧
    (buildGenerationConfig 65536 "gemini" true (some 1000) (some 16000)
      none).thinkingConfig =
      some { includeThoughts := true, budget := some 16000 } ∧
    ((1000 : Int) ≤ 16000 ∧ some (1000 : Int) ≠ some (16000 + 8192 : Int)) := by
  refine ⟨by decide, by decide, by decide, by decide⟩

/-- C8 (amended): for thinking *Claude-family* targets whose thinking config
carries a truthy token budget (from the request or the configured default),
a truthy `max_tokens` that is at most the budget makes the outbound
`maxOutputTokens` equal `budget + 8192`; Gemini thinking targets never get the
bump. -/
theorem buildGenerationConfig_claude_bump (geminiMaxOutputTokens : Int)
    (maxTokens budgetReq defaultBudget : Option Int) (b m : Int)
    (hb : truthyInt (jsOrInt budgetReq defaultBudget) = some b)
    (hm : truthyInt maxTokens = some m)
    (hle : m ≤ b) :
    (buildGenerationConfig geminiMaxOutputTokens "claude" true maxTokens
      budgetReq defaultBudget).maxOutputTokens = some (b + 8192) := by
  unfold buildGenerationConfig
  simp [hb, hm, hle]

/-- Witness for `buildGenerationConfig_claude_bump` at a concrete request. -/
theorem buildGenerationConfig_claude_bump_witness :
    (buildGenerationConfig 65536 "claude" true (some 1000) (some 16000)
      none).maxOutputTokens = some ((16000 : Int) + 8192) :=
  buildGenerationConfig_claude_bump 65536 (some 1000) (some 16000) none
    16000 1000 (by decide) (by decide) (by decide)

end AGProxy
